import Mathlib

/-!
Shallow embedding of the market-maker simulator (`api/get-data.js`).

Numbers are modelled by `ℚ` (the source uses JS doubles; all claim-relevant
arithmetic is field arithmetic, which we render exactly over the rationals).
Wall-clock instants (`Date.now()`, `new Date()`) are modelled as explicit
`ℕ` millisecond inputs.  The only transcendental ingredients of the source
(`Math.sqrt`, `Math.log`, `Math.cos` inside Box-Muller, and `Math.sqrt(dt)`
inside `generateTick`) are irrational-valued, so they are abstracted as an
explicit parameter record `NoiseModel`; every theorem below holds for every
instantiation of that record, in particular for the real Box-Muller map.
-/

namespace MMSim

/-- Trading side of an entry, mirroring the `'LONG'` / `'SHORT'` strings. -/
inductive Side where
  | LONG : Side
  | SHORT : Side
deriving DecidableEq, Repr

/-- One side of the book: `{ size, avgPrice }` as in `TradingEngine`. -/
structure Position where
  size : ℚ
  avgPrice : ℚ
deriving DecidableEq, Repr

/-- Trade record pushed by `executeEntry`.  The source stores two formatted
renderings of the same timestamp (`toLocaleTimeString` / `toISOString`); both
are functions of the single instant modelled here as `timestamp : ℕ`. -/
structure Trade where
  id : ℕ
  timestamp : ℕ
  side : Side
  price : ℚ
  size : ℚ
  margin : ℚ
deriving DecidableEq, Repr

/-- Collapse record pushed by `executeCollapse`. -/
structure CollapseRec where
  id : ℕ
  timestamp : ℕ
  size : ℚ
  pnl : ℚ
deriving DecidableEq, Repr

/-- Ledger state owned by `TradingEngine`. -/
structure TradingState where
  balance : ℚ
  initialBalance : ℚ
  leverage : ℚ
  longPosition : Position
  shortPosition : Position
  realizedPnL : ℚ
  trades : List Trade
  collapses : List CollapseRec
deriving DecidableEq, Repr

/-- `TRADING_CONFIG.leverage`. -/
def cfgLeverage : ℚ := 10
/-- `TRADING_CONFIG.orderSizeUSD`. -/
def cfgOrderSizeUSD : ℚ := 50
/-- `TRADING_CONFIG.collapseThreshold`. -/
def cfgCollapseThreshold : ℚ := 100
/-- `TRADING_CONFIG.defaultBalance`. -/
def cfgDefaultBalance : ℚ := 1000
/-- `TRADING_CONFIG.candleDurationMs`. -/
def cfgCandleDurationMs : ℕ := 5000
/-- `TRADING_CONFIG.atrLength`. -/
def cfgAtrLength : ℕ := 20

namespace TradingEngine

/-- `TradingEngine.reset(initialBalance)`. -/
def reset (initialBalance : ℚ := cfgDefaultBalance) : TradingState :=
  { balance := initialBalance
    initialBalance := initialBalance
    leverage := cfgLeverage
    longPosition := { size := 0, avgPrice := 0 }
    shortPosition := { size := 0, avgPrice := 0 }
    realizedPnL := 0
    trades := []
    collapses := [] }

/-- `TradingEngine.calculateMargin(size, price) = size * price / leverage`. -/
def calculateMargin (st : TradingState) (size price : ℚ) : ℚ :=
  size * price / st.leverage

/-- `TradingEngine.calculateOrderSize(price)`. -/
def calculateOrderSize (st : TradingState) (price : ℚ) : ℚ :=
  let buyingPower := st.balance * st.leverage
  let maxNotional := min cfgOrderSizeUSD buyingPower
  maxNotional / price

/-- `TradingEngine.executeEntry(side, price, size, timestamp)`: returns the
updated state together with the trade, or `none` if margin is insufficient. -/
def executeEntry (st : TradingState) (side : Side) (price size : ℚ)
    (timestamp : ℕ) : TradingState × Option Trade :=
  let margin := calculateMargin st size price
  if margin > st.balance then
    (st, none)
  else
    let st1 :=
      if side = Side.LONG then
        let newSize := st.longPosition.size + size
        let newAvgPrice :=
          if st.longPosition.size > 0 then
            (st.longPosition.avgPrice * st.longPosition.size + price * size) / newSize
          else price
        { st with balance := st.balance - margin
                  longPosition := { size := newSize, avgPrice := newAvgPrice } }
      else
        let newSize := st.shortPosition.size + size
        let newAvgPrice :=
          if st.shortPosition.size > 0 then
            (st.shortPosition.avgPrice * st.shortPosition.size + price * size) / newSize
          else price
        { st with balance := st.balance - margin
                  shortPosition := { size := newSize, avgPrice := newAvgPrice } }
    let trade : Trade :=
      { id := st.trades.length + 1
        timestamp := timestamp
        side := side
        price := price
        size := size
        margin := margin }
    let newTrades := trade :: st1.trades
    let newTrades := if newTrades.length > 100 then newTrades.dropLast else newTrades
    ({ st1 with trades := newTrades }, some trade)

/-- `TradingEngine.shouldCollapse()`. -/
def shouldCollapse (st : TradingState) : Bool :=
  decide (st.balance < cfgCollapseThreshold
    ∧ st.longPosition.size > 0 ∧ st.shortPosition.size > 0)

/-- `TradingEngine.executeCollapse(timestamp)`: internal position netting. -/
def executeCollapse (st : TradingState) (timestamp : ℕ) :
    TradingState × Option CollapseRec :=
  let collapseSize := min st.longPosition.size st.shortPosition.size
  if collapseSize ≤ 0 then
    (st, none)
  else
    let pnl := (st.shortPosition.avgPrice - st.longPosition.avgPrice) * collapseSize
    let longMarginReturn := calculateMargin st collapseSize st.longPosition.avgPrice
    let shortMarginReturn := calculateMargin st collapseSize st.shortPosition.avgPrice
    let newLongSize := st.longPosition.size - collapseSize
    let newShortSize := st.shortPosition.size - collapseSize
    let collapse : CollapseRec :=
      { id := st.collapses.length + 1
        timestamp := timestamp
        size := collapseSize
        pnl := pnl }
    ({ st with
        longPosition :=
          { size := newLongSize
            avgPrice := if newLongSize > 0 then st.longPosition.avgPrice else 0 }
        shortPosition :=
          { size := newShortSize
            avgPrice := if newShortSize > 0 then st.shortPosition.avgPrice else 0 }
        balance := st.balance + longMarginReturn + shortMarginReturn + pnl
        realizedPnL := st.realizedPnL + pnl
        collapses := collapse :: st.collapses },
      some collapse)

/-- `TradingEngine.calculateUnrealizedPnL(currentPrice)`. -/
def calculateUnrealizedPnL (st : TradingState) (currentPrice : ℚ) : ℚ :=
  let longPnL :=
    if st.longPosition.size > 0 then
      st.longPosition.size * (currentPrice - st.longPosition.avgPrice)
    else 0
  let shortPnL :=
    if st.shortPosition.size > 0 then
      st.shortPosition.size * (st.shortPosition.avgPrice - currentPrice)
    else 0
  longPnL + shortPnL

/-- `TradingEngine.calculateEquity(currentPrice)`. -/
def calculateEquity (st : TradingState) (currentPrice : ℚ) : ℚ :=
  let longMargin := calculateMargin st st.longPosition.size st.longPosition.avgPrice
  let shortMargin := calculateMargin st st.shortPosition.size st.shortPosition.avgPrice
  st.balance + longMargin + shortMargin + calculateUnrealizedPnL st currentPrice

end TradingEngine

/-- OHLC candle.  The source field `open` is renamed `openPrice` (Lean
keyword); `timestamp` is the `Date.now()` instant in milliseconds. -/
structure Candle where
  openPrice : ℚ
  high : ℚ
  low : ℚ
  close : ℚ
  timestamp : ℕ
deriving DecidableEq, Repr

/-- True range of one adjacent candle pair, as computed inside the loop of
`calculateATR`. -/
def trueRange (previous current : Candle) : ℚ :=
  max (current.high - current.low)
    (max |current.high - previous.close| |current.low - previous.close|)

/-- Embedding of `calculateATR(candles, length)`.  The source loop visits the
adjacent pairs of the last `lookback = min(candles.length, length + 1)`
candles, which is exactly the adjacent-pair zip of that suffix window. -/
def calculateATR (candles : List Candle) (length : ℕ := cfgAtrLength) : ℚ :=
  if candles.length < 2 then 0
  else
    let lookback := min candles.length (length + 1)
    let window := candles.drop (candles.length - lookback)
    let trueRanges := (window.zip window.tail).map fun p => trueRange p.1 p.2
    if trueRanges.length = 0 then 0
    else trueRanges.sum / (trueRanges.length : ℚ)

/-- Per-asset parameters from `ASSET_CONFIGS` (the external feed identifier
`coinId` is out of core scope and omitted). -/
structure AssetConfig where
  kVol : ℚ
  kPos : ℚ
  tickSize : ℚ
  maxPosition : ℚ
  initPrice : ℚ
  decimals : ℕ
deriving DecidableEq, Repr

/-- `ASSET_CONFIGS.BTC`. -/
def btcConfig : AssetConfig :=
  { kVol := 0.2, kPos := 0.3, tickSize := 1, maxPosition := 0.5
    initPrice := 95000, decimals := 0 }

/-- JS `Math.round`: rounds half away from negative infinity,
`Math.round(x) = floor(x + 0.5)`. -/
def mathRound (x : ℚ) : ℚ := ((⌊x + 1/2⌋ : ℤ) : ℚ)

/-- Embedding of `roundPrice(price, config)`. -/
def roundPrice (price : ℚ) (config : AssetConfig) : ℚ :=
  if config.decimals = 0 then mathRound price
  else mathRound (price / config.tickSize) * config.tickSize

/-- Result record of `calculateQuotes`. -/
structure Quotes where
  bid : ℚ
  ask : ℚ
  baseSpread : ℚ
  actualSpread : ℚ
  skew : ℚ
  imbalance : ℚ
deriving DecidableEq, Repr

/-- Embedding of `calculateQuotes(mid, atr, longSize, shortSize, config)`. -/
def calculateQuotes (mid atr longSize shortSize : ℚ) (config : AssetConfig) :
    Quotes :=
  let minSpread := config.tickSize * 2
  let baseSpread := max minSpread (config.kVol * atr)
  let netPosition := longSize - shortSize
  let imbalance := netPosition / config.maxPosition
  let skew := config.kPos * imbalance * baseSpread
  let bidPrice := roundPrice (mid - baseSpread / 2 - skew) config
  let askPrice := roundPrice (mid + baseSpread / 2 - skew) config
  { bid := bidPrice
    ask := askPrice
    baseSpread := baseSpread
    actualSpread := askPrice - bidPrice
    skew := skew
    imbalance := imbalance }

/-- Word size of the Mulberry32 transform, `4294967296 = 2 ^ 32`. -/
def UINT32SIZE : ℕ := 4294967296

/-- State of `SeededRNG`.  In the source `this.state += 0x6D2B79F5` stores the
unwrapped sum in a JS double (exact for the magnitudes reachable here), and
every bitwise step converts to 32 bits; `state : ℕ` with the explicit
`% UINT32SIZE` conversions below reproduces this exactly. -/
structure RNGState where
  seed : ℕ
  state : ℕ
deriving DecidableEq, Repr

/-- Output mixing of `SeededRNG.random()` (Mulberry32) applied to the
post-increment state: `Math.imul` is 32-bit wrapping multiplication and each
ToInt32/ToUint32 coercion is a `% UINT32SIZE` on the bit pattern. -/
def mulberry32Mix (s : ℕ) : ℕ :=
  let t0 := s % UINT32SIZE
  let t1 := (t0 ^^^ (t0 >>> 15)) * (t0 ||| 1) % UINT32SIZE
  let t2 := t1 ^^^ ((t1 + (t1 ^^^ (t1 >>> 7)) * (t1 ||| 61) % UINT32SIZE) % UINT32SIZE)
  (t2 ^^^ (t2 >>> 14)) % UINT32SIZE

/-- Embedding of `SeededRNG.random()`: advances the state by `0x6D2B79F5` and
returns the mixed output normalized to `[0, 1)` by division by `2 ^ 32`. -/
def rngRandom (r : RNGState) : RNGState × ℚ :=
  let s := r.state + 0x6D2B79F5
  ({ r with state := s }, (mulberry32Mix s : ℚ) / (UINT32SIZE : ℚ))

/-- Abstraction of the only irrational-valued operations of the source.
`gauss u1 u2` stands for the Box-Muller value
`Math.sqrt(-2 * Math.log(u1)) * Math.cos(2 * Math.PI * u2)` computed by
`SeededRNG.randomNormal()` from its two uniform draws, and `sqrtDt` stands
for `Math.sqrt(dt)` in `PriceSimulator.generateTick`.  Both are real-valued
and are kept as explicit parameters; every theorem holds for every
instantiation. -/
structure NoiseModel where
  gauss : ℚ → ℚ → ℚ
  sqrtDt : ℚ

/-- Embedding of `SeededRNG.randomNormal()` with default mean 0, stdDev 1:
two uniform draws fed to the Box-Muller map. -/
def rngRandomNormal (nm : NoiseModel) (r : RNGState) : RNGState × ℚ :=
  let d1 := rngRandom r
  let d2 := rngRandom d1.1
  (d2.1, nm.gauss d1.2 d2.2)

/-- Mutable state of `PriceSimulator`.  The source stores the regime name and
the asset symbol and looks up `VOLATILITY_REGIMES[regime].factor` and the
per-asset `baseVol` table on each tick; both tables are immutable, so the
looked-up values are stored directly. -/
structure SimState where
  currentPrice : ℚ
  volatilityFactor : ℚ
  drift : ℚ
  baseVol : ℚ
  candles : List Candle
  currentCandle : Option Candle
  candleStartTime : Option ℕ
deriving DecidableEq, Repr

/-- `baseVol.BTC` from the table inside `generateTick` (about 60% annual). -/
def btcBaseVol : ℚ := 0.6

/-- Initial `PriceSimulator` state (constructor / `reset()`): initial price,
medium regime (factor 1), zero drift, empty candle history. -/
def initSimState (config : AssetConfig) (baseVol : ℚ) : SimState :=
  { currentPrice := config.initPrice
    volatilityFactor := 1
    drift := 0
    baseVol := baseVol
    candles := []
    currentCandle := none
    candleStartTime := none }

/-- Embedding of `PriceSimulator.updateCandle(price)` at wall-clock `now`.
JS treats a stored `candleStartTime` of `0` as falsy, hence the `start = 0`
disjunct.  In the non-rollover branch the source dereferences
`this.currentCandle`, which is always set whenever `candleStartTime` is set;
the `none => none` arm totalizes that unreachable case. -/
def updateCandle (st : SimState) (price : ℚ) (now : ℕ) : SimState :=
  let rollover :=
    match st.candleStartTime with
    | none => true
    | some start => decide (start = 0 ∨ cfgCandleDurationMs ≤ now - start)
  if rollover then
    let candles1 :=
      match st.currentCandle with
      | none => st.candles
      | some c =>
        let cs := st.candles ++ [c]
        if cs.length > 50 then cs.drop 1 else cs
    { st with
        candles := candles1
        currentCandle := some
          { openPrice := price, high := price, low := price, close := price
            timestamp := now }
        candleStartTime := some now }
  else
    { st with
        currentCandle :=
          match st.currentCandle with
          | none => none
          | some c =>
            some { c with high := max c.high price, low := min c.low price
                          close := price } }

/-- Default time step of `generateTick`: `dt = 1.5 / 86400` days. -/
def simDt : ℚ := 1.5 / 86400

/-- Embedding of `PriceSimulator.generateTick()` (default `dt`): one GBM step
`price += drift * price * dt + volatility * price * sqrt(dt) * Z`, clamped
below at the tick size, followed by the candle update. -/
def generateTick (nm : NoiseModel) (config : AssetConfig) (rng : RNGState)
    (st : SimState) (now : ℕ) : RNGState × SimState :=
  let d1 := rngRandom rng
  let d2 := rngRandom d1.1
  let z := nm.gauss d1.2 d2.2
  let volatility := st.baseVol * st.volatilityFactor
  let driftComponent := st.drift * st.currentPrice * simDt
  let randomComponent := volatility * st.currentPrice * nm.sqrtDt * z
  let newPrice := max (st.currentPrice + driftComponent + randomComponent) config.tickSize
  (d2.1, { updateCandle st newPrice now with currentPrice := newPrice })

/-- One `DataPoint` record appended per tick. -/
structure DataPoint where
  timestamp : ℕ
  tick : ℕ
  mid : ℚ
  bid : ℚ
  ask : ℚ
  spread : ℚ
  atr : ℚ
  balance : ℚ
  equity : ℚ
  unrealizedPnL : ℚ
  realizedPnL : ℚ
  longSize : ℚ
  shortSize : ℚ
deriving DecidableEq, Repr

/-- State of `SimulationEngine` in simulation mode (the live-price fetcher is
an external collaborator and never used on this path). -/
structure EngineState where
  rng : RNGState
  sim : SimState
  trading : TradingState
  config : AssetConfig
  atrLength : ℕ
  tickCount : ℕ
  currentMid : ℚ
  currentATR : ℚ
  currentQuotes : Quotes
  dataHistory : List DataPoint
deriving DecidableEq, Repr

/-- Embedding of `SimulationEngine.simulateMarketActivity(timestamp)`.  The
second component distinguishes the three source outcomes: `none` when the
25% fill check fails (no entry attempted), `some r` when an entry is
attempted and `r` is the `executeEntry` result (`none` there is the
insufficient-margin rejection). -/
def simulateMarketActivity (st : EngineState) (timestamp : ℕ) :
    EngineState × Option (Option Trade) :=
  let d0 := rngRandom st.rng
  if d0.2 > 0.25 then
    ({ st with rng := d0.1 }, none)
  else
    let d1 := rngRandom d0.1
    let isBuyOrder := d1.2 < 0.5
    let d2 := rngRandom d1.1
    let fillPercentage := 0.5 + d2.2 * 0.5
    if isBuyOrder then
      let orderSize := TradingEngine.calculateOrderSize st.trading st.currentQuotes.ask
      let fillSize := orderSize * fillPercentage
      let res := TradingEngine.executeEntry st.trading Side.SHORT
        st.currentQuotes.ask fillSize timestamp
      ({ st with rng := d2.1, trading := res.1 }, some res.2)
    else
      let orderSize := TradingEngine.calculateOrderSize st.trading st.currentQuotes.bid
      let fillSize := orderSize * fillPercentage
      let res := TradingEngine.executeEntry st.trading Side.LONG
        st.currentQuotes.bid fillSize timestamp
      ({ st with rng := d2.1, trading := res.1 }, some res.2)

/-- Step 3 of `SimulationEngine.tick()`: collapse when `shouldCollapse()`. -/
def collapseStep (trading : TradingState) (timestamp : ℕ) :
    TradingState × Option CollapseRec :=
  if TradingEngine.shouldCollapse trading then
    TradingEngine.executeCollapse trading timestamp
  else (trading, none)

/-- Embedding of one `SimulationEngine.tick()` in simulation mode at
wall-clock instant `now` (= `new Date()` / `Date.now()`), returning the new
engine state and the recorded `DataPoint`. -/
def tick (nm : NoiseModel) (st : EngineState) (now : ℕ) :
    EngineState × DataPoint :=
  let tickCount := st.tickCount + 1
  let pr := generateTick nm st.config st.rng st.sim now
  let sim1 := pr.2
  let mid := sim1.currentPrice
  let atr := calculateATR sim1.candles st.atrLength
  let trading1 := (collapseStep st.trading now).1
  let quotes := calculateQuotes mid atr trading1.longPosition.size
    trading1.shortPosition.size st.config
  let st1 : EngineState :=
    { st with rng := pr.1, sim := sim1, tickCount := tickCount, trading := trading1
              currentMid := mid, currentATR := atr, currentQuotes := quotes }
  let st2 := (simulateMarketActivity st1 now).1
  let unrealizedPnL := TradingEngine.calculateUnrealizedPnL st2.trading mid
  let equity := TradingEngine.calculateEquity st2.trading mid
  let dataPoint : DataPoint :=
    { timestamp := now
      tick := tickCount
      mid := mid
      bid := quotes.bid
      ask := quotes.ask
      spread := quotes.actualSpread
      atr := atr
      balance := st2.trading.balance
      equity := equity
      unrealizedPnL := unrealizedPnL
      realizedPnL := st2.trading.realizedPnL
      longSize := st2.trading.longPosition.size
      shortSize := st2.trading.shortPosition.size }
  let hist0 := st2.dataHistory ++ [dataPoint]
  let hist := if hist0.length > 1000 then hist0.drop 1 else hist0
  ({ st2 with dataHistory := hist }, dataPoint)

/-- Drives `tick` once per instant of `times`, collecting the `DataPoint`
sequence the observers receive. -/
def runSim (nm : NoiseModel) (st : EngineState) (times : List ℕ) :
    List DataPoint :=
  match times with
  | [] => []
  | t :: ts =>
    let r := tick nm st t
    r.2 :: runSim nm r.1 ts

/-- Zeroed quote record, as initialized by the `SimulationEngine`
constructor and by `reset()`. -/
def initQuotes : Quotes :=
  { bid := 0, ask := 0, baseSpread := 0, actualSpread := 0, skew := 0
    imbalance := 0 }

/-- Engine state after `new SimulationEngine()` + `setAsset('BTC')` +
`setSeed(seed)` + `reset()` in simulation mode. -/
def initEngine (seed : ℕ) : EngineState :=
  { rng := { seed := seed, state := seed }
    sim := initSimState btcConfig btcBaseVol
    trading := TradingEngine.reset cfgDefaultBalance
    config := btcConfig
    atrLength := cfgAtrLength
    tickCount := 0
    currentMid := 0
    currentATR := 0
    currentQuotes := initQuotes
    dataHistory := [] }

/-! ## Helper lemmas -/

/-- Adjacent-pair zipping commutes with taking a suffix. -/
lemma zip_tail_drop {α : Type} :
    ∀ (xs : List α) (m : ℕ),
      (xs.drop m).zip (xs.drop m).tail = (xs.zip xs.tail).drop m := by
  intro xs
  induction xs with
  | nil => intro m; simp
  | cons a xs ih =>
    intro m
    match m with
    | 0 => rfl
    | Nat.succ m =>
      match xs with
      | [] => simp
      | b :: ys =>
        have h := ih m
        simpa [List.drop_succ_cons] using h

/-- Constructor disequality of the two sides, in rewrite form. -/
lemma short_eq_long_iff_false : (Side.SHORT = Side.LONG) = False := by
  simp

/-- Branching on positivity and branching on non-zeroness agree for
nonnegative quantities. -/
lemma ite_pos_eq_ite_ne {x a : ℚ} (hx : 0 ≤ x) :
    (if x > 0 then a else 0) = if x = 0 then 0 else a := by
  rcases eq_or_lt_of_le hx with h | h
  · subst h; norm_num
  · rw [if_pos h, if_neg (ne_of_gt h)]

/-- Statement of the spec's ATR description: arithmetic mean of the true
ranges over the last `min(len - 1, N)` adjacent candle pairs, 0 when fewer
than two candles exist (an empty mean is read as 0, matching `0 / 0 = 0`
over `ℚ`). -/
def atrSpec (candles : List Candle) (N : ℕ) : ℚ :=
  if candles.length < 2 then 0
  else
    let pairs := (candles.zip candles.tail).map fun p => trueRange p.1 p.2
    let lastK := pairs.drop (pairs.length - min (candles.length - 1) N)
    lastK.sum / (lastK.length : ℚ)

/-! ## Claim theorems -/

/-- C7: for every candle sequence and lookback length `N`, `calculateATR`
returns 0 when fewer than 2 candles exist, and otherwise returns the
arithmetic mean, over the last `min(len - 1, N)` adjacent candle pairs, of
the true range `max(high - low, |high - prevClose|, |low - prevClose|)`;
in particular for the two candles `(h=10, l=8, c=9)` then `(h=11, l=9,
c=10)`, the ATR with length 1 equals 2. -/
theorem calculateATR_mean_of_last_true_ranges :
    (∀ (candles : List Candle) (N : ℕ), calculateATR candles N = atrSpec candles N)
    ∧ calculateATR [⟨9, 10, 8, 9, 0⟩, ⟨10, 11, 9, 10, 0⟩] 1 = 2 := by
  constructor
  · intro candles N
    by_cases h2 : candles.length < 2
    · simp only [calculateATR, atrSpec, if_pos h2]
    · have hlen2 : 2 ≤ candles.length := not_lt.mp h2
      have hpairs : ((candles.zip candles.tail).map
          fun p => trueRange p.1 p.2).length = candles.length - 1 := by
        rw [List.length_map, List.length_zip, List.length_tail]
        omega
      have hdrop : candles.length - min candles.length (N + 1)
          = (((candles.zip candles.tail).map fun p => trueRange p.1 p.2).length
            - min (candles.length - 1) N) := by
        rw [hpairs]; omega
      simp only [calculateATR, atrSpec, if_neg h2]
      rw [zip_tail_drop candles, List.map_drop, hdrop]
      set trs := (((candles.zip candles.tail).map fun p => trueRange p.1 p.2).drop
        (((candles.zip candles.tail).map fun p => trueRange p.1 p.2).length
          - min (candles.length - 1) N)) with htrs
      by_cases h0 : trs.length = 0
      · rw [if_pos h0, List.length_eq_zero.mp h0]
        simp
      · rw [if_neg h0]
  · norm_num [calculateATR, trueRange, cfgAtrLength]

/-- C1: `executeCollapse` computes `collapseSize = min(L, S)`; if it is at
most 0 it returns `none` and changes nothing; otherwise it adds
`pnl = (sa - la) * collapseSize` to the cumulative realized PnL, adds
`collapseSize * la / leverage + collapseSize * sa / leverage + pnl` to the
cash balance, reduces both position sizes by `collapseSize`, sets `avgPrice`
to 0 on any side whose size reaches 0 (leaving it unchanged otherwise), and
records the collapse. -/
theorem executeCollapse_result (st : TradingState) (t : ℕ) :
    (min st.longPosition.size st.shortPosition.size ≤ 0 →
      TradingEngine.executeCollapse st t = (st, none)) ∧
    (0 < min st.longPosition.size st.shortPosition.size →
      TradingEngine.executeCollapse st t =
        ({ st with
            balance := st.balance
              + min st.longPosition.size st.shortPosition.size
                  * st.longPosition.avgPrice / st.leverage
              + min st.longPosition.size st.shortPosition.size
                  * st.shortPosition.avgPrice / st.leverage
              + (st.shortPosition.avgPrice - st.longPosition.avgPrice)
                  * min st.longPosition.size st.shortPosition.size
            realizedPnL := st.realizedPnL
              + (st.shortPosition.avgPrice - st.longPosition.avgPrice)
                  * min st.longPosition.size st.shortPosition.size
            longPosition :=
              { size := st.longPosition.size
                  - min st.longPosition.size st.shortPosition.size
                avgPrice := if st.longPosition.size
                    - min st.longPosition.size st.shortPosition.size = 0
                  then 0 else st.longPosition.avgPrice }
            shortPosition :=
              { size := st.shortPosition.size
                  - min st.longPosition.size st.shortPosition.size
                avgPrice := if st.shortPosition.size
                    - min st.longPosition.size st.shortPosition.size = 0
                  then 0 else st.shortPosition.avgPrice }
            collapses :=
              { id := st.collapses.length + 1
                timestamp := t
                size := min st.longPosition.size st.shortPosition.size
                pnl := (st.shortPosition.avgPrice - st.longPosition.avgPrice)
                  * min st.longPosition.size st.shortPosition.size }
                :: st.collapses },
          some
            { id := st.collapses.length + 1
              timestamp := t
              size := min st.longPosition.size st.shortPosition.size
              pnl := (st.shortPosition.avgPrice - st.longPosition.avgPrice)
                * min st.longPosition.size st.shortPosition.size })) := by
  constructor
  · intro h
    rw [TradingEngine.executeCollapse, if_pos h]
  · intro h
    rw [TradingEngine.executeCollapse, if_neg (not_le.mpr h)]
    have hL : 0 ≤ st.longPosition.size
        - min st.longPosition.size st.shortPosition.size :=
      sub_nonneg.mpr (min_le_left _ _)
    have hS : 0 ≤ st.shortPosition.size
        - min st.longPosition.size st.shortPosition.size :=
      sub_nonneg.mpr (min_le_right _ _)
    simp only [TradingEngine.calculateMargin]
    rw [ite_pos_eq_ite_ne hL, ite_pos_eq_ite_ne hS]

/-- C1 witness: from long `{size=2, avg=100}` and short `{size=1, avg=105}`
with leverage 10 and balance 1000, the collapse nets size 1, realized PnL
increases by 5, the long side becomes `{1, 100}`, the short side becomes
`{0, 0}`, and the balance increases by `margin(1,100) + margin(1,105) + 5
= 25.5`. -/
theorem executeCollapse_result_witness :
    TradingEngine.executeCollapse
        { TradingEngine.reset 1000 with
            longPosition := ⟨2, 100⟩, shortPosition := ⟨1, 105⟩ } 0 =
      ({ TradingEngine.reset 1000 with
          balance := 1000 + 100 / 10 + 105 / 10 + 5
          realizedPnL := 5
          longPosition := ⟨1, 100⟩
          shortPosition := ⟨0, 0⟩
          collapses := [⟨1, 0, 1, 5⟩] },
        some ⟨1, 0, 1, 5⟩) := by
  have h := (executeCollapse_result
    { TradingEngine.reset 1000 with
        longPosition := ⟨2, 100⟩, shortPosition := ⟨1, 105⟩ } 0).2
    (by norm_num)
  rw [h]
  norm_num [TradingEngine.reset, cfgLeverage, cfgDefaultBalance]

/-- C8: one `generateTick` step sets the price to the GBM update
`price + drift * price * dt + volatility * price * sqrt(dt) * Z` (with `Z`
the Box-Muller draw obtained from the two uniform draws of the seeded RNG)
clamped from below at the asset's tick size, so with a positive tick size
the simulated price stays at least one tick and is never non-positive. -/
theorem generateTick_price_clamped (nm : NoiseModel) (config : AssetConfig)
    (rng : RNGState) (st : SimState) (now : ℕ) (htick : 0 < config.tickSize) :
    (generateTick nm config rng st now).2.currentPrice =
        max (st.currentPrice + st.drift * st.currentPrice * simDt
          + st.baseVol * st.volatilityFactor * st.currentPrice * nm.sqrtDt
            * nm.gauss (rngRandom rng).2 (rngRandom (rngRandom rng).1).2)
          config.tickSize
    ∧ config.tickSize ≤ (generateTick nm config rng st now).2.currentPrice
    ∧ 0 < (generateTick nm config rng st now).2.currentPrice := by
  refine ⟨rfl, le_max_right _ _, lt_of_lt_of_le htick (le_max_right _ _)⟩

/-- C8 witness: at the BTC configuration (tick size 1) the clamp equation
and the positivity bounds hold at a concrete state. -/
theorem generateTick_price_clamped_witness :
    (0:ℚ) < btcConfig.tickSize
    ∧ (generateTick ⟨fun _ _ => 0, 0⟩ btcConfig ⟨12345, 12345⟩
        (initSimState btcConfig btcBaseVol) 0).2.currentPrice =
          max ((initSimState btcConfig btcBaseVol).currentPrice
            + (initSimState btcConfig btcBaseVol).drift
              * (initSimState btcConfig btcBaseVol).currentPrice * simDt
            + (initSimState btcConfig btcBaseVol).baseVol
              * (initSimState btcConfig btcBaseVol).volatilityFactor
              * (initSimState btcConfig btcBaseVol).currentPrice * (0:ℚ)
              * (0:ℚ))
            btcConfig.tickSize
    ∧ btcConfig.tickSize ≤ (generateTick ⟨fun _ _ => 0, 0⟩ btcConfig
        ⟨12345, 12345⟩ (initSimState btcConfig btcBaseVol) 0).2.currentPrice
    ∧ (0:ℚ) < (generateTick ⟨fun _ _ => 0, 0⟩ btcConfig ⟨12345, 12345⟩
        (initSimState btcConfig btcBaseVol) 0).2.currentPrice := by
  have h := generateTick_price_clamped ⟨fun _ _ => 0, 0⟩ btcConfig
    ⟨12345, 12345⟩ (initSimState btcConfig btcBaseVol) 0 (by norm_num [btcConfig])
  exact ⟨by norm_num [btcConfig], h.1, h.2.1, h.2.2⟩

/-- Position selected by a side. -/
def posOf (st : TradingState) : Side → Position
  | Side.LONG => st.longPosition
  | Side.SHORT => st.shortPosition

/-- Size-weighted average of an existing position and a new fill, as the
spec words the entry update. -/
def specWeighted (p : Position) (price size : ℚ) : Position :=
  { size := p.size + size
    avgPrice := (p.avgPrice * p.size + price * size) / (p.size + size) }

/-- Statement of the spec's description of entry execution: reject with no
state change when `size * price / leverage` exceeds the balance; otherwise
debit exactly that margin, move only the requested side to the
size-weighted average of old position and new fill, prepend the trade
record keeping the newest 100, and return the trade. -/
def specEntry (st : TradingState) (side : Side) (price size : ℚ) (t : ℕ) :
    TradingState × Option Trade :=
  let margin := size * price / st.leverage
  if margin > st.balance then (st, none)
  else
    let tr : Trade :=
      { id := st.trades.length + 1, timestamp := t, side := side
        price := price, size := size, margin := margin }
    let st1 :=
      if side = Side.LONG then
        { st with balance := st.balance - margin
                  longPosition := specWeighted st.longPosition price size }
      else
        { st with balance := st.balance - margin
                  shortPosition := specWeighted st.shortPosition price size }
    ({ st1 with trades := (tr :: st.trades).take 100 }, some tr)

/-- C2: for every ledger state and entry request whose updated side stays at
a positive size (so that the size-weighted average is defined) out of a
nonnegative one, with at most 100 stored trades, `executeEntry` behaves
exactly as the spec words it: margin above the balance rejects with no state
change, and otherwise exactly the margin is debited, only the requested
side is moved to the size-weighted average price, one trade record is
appended (evicting the oldest beyond 100), and that trade is returned. -/
theorem executeEntry_matches_spec (st : TradingState) (side : Side)
    (price size : ℚ) (t : ℕ)
    (hpos : 0 ≤ (posOf st side).size)
    (hnew : 0 < (posOf st side).size + size)
    (htr : st.trades.length ≤ 100) :
    TradingEngine.executeEntry st side price size t =
      specEntry st side price size t := by
  have htake : ∀ (tr : Trade) (l : List Trade), l.length ≤ 100 →
      (if (tr :: l).length > 100 then (tr :: l).dropLast else tr :: l)
        = (tr :: l).take 100 := by
    intro tr l hl
    by_cases hc : (tr :: l).length > 100
    · rw [if_pos hc, List.dropLast_eq_take]
      have hlen : (tr :: l).length - 1 = 100 := by
        simp only [List.length_cons] at hc ⊢
        omega
      rw [hlen]
    · rw [if_neg hc]
      rw [List.take_of_length_le (by omega)]
  rw [TradingEngine.executeEntry, specEntry]
  simp only [TradingEngine.calculateMargin]
  by_cases hrej : size * price / st.leverage > st.balance
  · rw [if_pos hrej, if_pos hrej]
  · rw [if_neg hrej, if_neg hrej]
    cases side with
    | LONG =>
      simp only [posOf] at hpos hnew
      have hw : (if st.longPosition.size > 0 then
            (st.longPosition.avgPrice * st.longPosition.size + price * size)
              / (st.longPosition.size + size)
          else price)
          = (st.longPosition.avgPrice * st.longPosition.size + price * size)
              / (st.longPosition.size + size) := by
        rcases eq_or_lt_of_le hpos with h0 | h0
        · rw [if_neg (by rw [← h0]; exact lt_irrefl 0), ← h0]
          have hsz : size ≠ 0 := fun hz => by
            rw [← h0, hz] at hnew
            simp at hnew
          field_simp
        · rw [if_pos h0]
      simp only [eq_self_iff_true, if_true, ite_true, specWeighted, hw,
        htake _ _ htr]
    | SHORT =>
      simp only [posOf] at hpos hnew
      have hw : (if st.shortPosition.size > 0 then
            (st.shortPosition.avgPrice * st.shortPosition.size + price * size)
              / (st.shortPosition.size + size)
          else price)
          = (st.shortPosition.avgPrice * st.shortPosition.size + price * size)
              / (st.shortPosition.size + size) := by
        rcases eq_or_lt_of_le hpos with h0 | h0
        · rw [if_neg (by rw [← h0]; exact lt_irrefl 0), ← h0]
          have hsz : size ≠ 0 := fun hz => by
            rw [← h0, hz] at hnew
            simp at hnew
          field_simp
        · rw [if_pos h0]
      have hne : (Side.SHORT = Side.LONG) = False := by simp
      simp only [hne, if_false, ite_false, specWeighted, hw, htake _ _ htr]

/-- C2 witness: a concrete accepted entry (price 100, size 1, leverage 10,
balance 1000) satisfies the hypotheses and matches the spec rendering. -/
theorem executeEntry_matches_spec_witness :
    0 ≤ (posOf (TradingEngine.reset 1000) Side.LONG).size
    ∧ 0 < (posOf (TradingEngine.reset 1000) Side.LONG).size + 1
    ∧ (TradingEngine.reset 1000).trades.length ≤ 100
    ∧ TradingEngine.executeEntry (TradingEngine.reset 1000) Side.LONG 100 1 7 =
        specEntry (TradingEngine.reset 1000) Side.LONG 100 1 7 :=
  ⟨by norm_num [posOf, TradingEngine.reset],
    by norm_num [posOf, TradingEngine.reset],
    by norm_num [TradingEngine.reset],
    executeEntry_matches_spec (TradingEngine.reset 1000) Side.LONG 100 1 7
      (by norm_num [posOf, TradingEngine.reset])
      (by norm_num [posOf, TradingEngine.reset])
      (by norm_num [TradingEngine.reset])⟩

/-- Invariant of the two book sides: sizes are nonnegative and a side of
size 0 carries average price 0. -/
def ledgerInvariant (st : TradingState) : Prop :=
  0 ≤ st.longPosition.size ∧ 0 ≤ st.shortPosition.size
  ∧ (st.longPosition.size = 0 → st.longPosition.avgPrice = 0)
  ∧ (st.shortPosition.size = 0 → st.shortPosition.avgPrice = 0)

instance (st : TradingState) : Decidable (ledgerInvariant st) := by
  unfold ledgerInvariant; infer_instance

/-- C5 counterexample: the invariant fails to be preserved by `executeEntry`
with `size = 0` at a positive price: from the freshly reset ledger (which
satisfies the invariant), entering LONG at price 100 with size 0 is
accepted (margin 0) and sets the long side to `{size = 0, avgPrice = 100}`,
violating the zero-size-zero-price clause. -/
theorem ledgerInvariant_entry_size_zero_cex :
    ledgerInvariant (TradingEngine.reset 1000)
    ∧ (0:ℚ) < 100 ∧ (0:ℚ) ≤ 0
    ∧ ¬ ledgerInvariant
        (TradingEngine.executeEntry (TradingEngine.reset 1000)
          Side.LONG 100 0 0).1 := by
  have hsz : (TradingEngine.executeEntry (TradingEngine.reset 1000)
      Side.LONG 100 0 0).1.longPosition.size = 0 := by
    norm_num [TradingEngine.executeEntry, TradingEngine.reset,
      TradingEngine.calculateMargin, cfgLeverage, cfgDefaultBalance]
  have hav : (TradingEngine.executeEntry (TradingEngine.reset 1000)
      Side.LONG 100 0 0).1.longPosition.avgPrice = 100 := by
    norm_num [TradingEngine.executeEntry, TradingEngine.reset,
      TradingEngine.calculateMargin, cfgLeverage, cfgDefaultBalance]
  refine ⟨⟨le_refl 0, le_refl 0, fun _ => rfl, fun _ => rfl⟩,
    by norm_num, le_refl 0, ?_⟩
  intro h
  obtain ⟨-, -, hLa, -⟩ := h
  have h100 := hLa hsz
  rw [hav] at h100
  exact absurd h100 (by norm_num)

/-- C5 (amended: entries of strictly positive size): the invariant holds
after reset and is preserved by `executeEntry` with any side, positive
price and positive size, and by `executeCollapse`. -/
theorem ledgerInvariant_preserved :
    (∀ b : ℚ, ledgerInvariant (TradingEngine.reset b))
    ∧ (∀ (st : TradingState) (side : Side) (price size : ℚ) (t : ℕ),
        ledgerInvariant st → 0 < price → 0 < size →
        ledgerInvariant (TradingEngine.executeEntry st side price size t).1)
    ∧ (∀ (st : TradingState) (t : ℕ),
        ledgerInvariant st →
        ledgerInvariant (TradingEngine.executeCollapse st t).1) := by
  refine ⟨fun b => ⟨le_refl 0, le_refl 0, fun _ => rfl, fun _ => rfl⟩, ?_, ?_⟩
  · intro st side price size t hinv hp hs
    obtain ⟨hL, hS, hLa, hSa⟩ := hinv
    rw [TradingEngine.executeEntry]
    simp only [TradingEngine.calculateMargin]
    by_cases hrej : size * price / st.leverage > st.balance
    · rw [if_pos hrej]
      exact ⟨hL, hS, hLa, hSa⟩
    · rw [if_neg hrej]
      cases side with
      | LONG =>
        rw [if_pos rfl]
        have hpos : 0 < st.longPosition.size + size :=
          add_pos_of_nonneg_of_pos hL hs
        exact ⟨le_of_lt hpos, hS,
          fun h0 => absurd h0 (ne_of_gt hpos), hSa⟩
      | SHORT =>
        rw [if_neg (by simp : ¬(Side.SHORT = Side.LONG))]
        have hpos : 0 < st.shortPosition.size + size :=
          add_pos_of_nonneg_of_pos hS hs
        exact ⟨hL, le_of_lt hpos, hLa,
          fun h0 => absurd h0 (ne_of_gt hpos)⟩
  · intro st t hinv
    obtain ⟨hL, hS, hLa, hSa⟩ := hinv
    rw [TradingEngine.executeCollapse]
    by_cases hc : min st.longPosition.size st.shortPosition.size ≤ 0
    · rw [if_pos hc]
      exact ⟨hL, hS, hLa, hSa⟩
    · rw [if_neg hc]
      simp only [TradingEngine.calculateMargin]
      have hL2 : 0 ≤ st.longPosition.size
          - min st.longPosition.size st.shortPosition.size :=
        sub_nonneg.mpr (min_le_left _ _)
      have hS2 : 0 ≤ st.shortPosition.size
          - min st.longPosition.size st.shortPosition.size :=
        sub_nonneg.mpr (min_le_right _ _)
      refine ⟨hL2, hS2, ?_, ?_⟩
      · show st.longPosition.size - min st.longPosition.size st.shortPosition.size = 0 →
          (if st.longPosition.size - min st.longPosition.size st.shortPosition.size > 0
            then st.longPosition.avgPrice else 0) = 0
        intro h0
        rw [h0]
        norm_num
      · show st.shortPosition.size - min st.longPosition.size st.shortPosition.size = 0 →
          (if st.shortPosition.size - min st.longPosition.size st.shortPosition.size > 0
            then st.shortPosition.avgPrice else 0) = 0
        intro h0
        rw [h0]
        norm_num

/-- C5 witness: the amended preservation applied at concrete inputs — a
positive-size entry and a collapse both keep the invariant. -/
theorem ledgerInvariant_preserved_witness :
    ledgerInvariant (TradingEngine.reset 1000)
    ∧ ledgerInvariant
        (TradingEngine.executeEntry (TradingEngine.reset 1000)
          Side.LONG 100 1 0).1
    ∧ ledgerInvariant
        (TradingEngine.executeCollapse
          { TradingEngine.reset 1000 with
              longPosition := ⟨2, 100⟩, shortPosition := ⟨1, 105⟩ } 0).1 :=
  ⟨ledgerInvariant_preserved.1 1000,
    ledgerInvariant_preserved.2.1 (TradingEngine.reset 1000)
      Side.LONG 100 1 0 (ledgerInvariant_preserved.1 1000)
      (by norm_num) (by norm_num),
    ledgerInvariant_preserved.2.2 _ 0
      (by exact ⟨by norm_num [TradingEngine.reset],
        by norm_num [TradingEngine.reset],
        fun h => absurd h (by norm_num [TradingEngine.reset]),
        fun h => absurd h (by norm_num [TradingEngine.reset])⟩)⟩

/-- C6 counterexample: with both positions entered at positive prices from a
nonnegative balance, `executeCollapse` can drive the balance negative.
From `reset 12`, entering LONG at 100 (size 1, margin 10) and SHORT at 10
(size 1, margin 1) leaves balance 1; the collapse then credits margin
10 + 1 and a realized loss of −90, leaving balance −78. -/
theorem balance_negative_after_collapse_cex :
    0 ≤ (TradingEngine.reset 12).balance
    ∧ 0 ≤ ((TradingEngine.executeEntry
        ((TradingEngine.executeEntry (TradingEngine.reset 12)
          Side.LONG 100 1 0).1) Side.SHORT 10 1 1).1).balance
    ∧ (TradingEngine.executeCollapse
        ((TradingEngine.executeEntry
          ((TradingEngine.executeEntry (TradingEngine.reset 12)
            Side.LONG 100 1 0).1) Side.SHORT 10 1 1).1) 2).1.balance < 0 := by
  norm_num [TradingEngine.executeEntry, TradingEngine.executeCollapse,
    TradingEngine.reset, TradingEngine.calculateMargin, cfgLeverage,
    cfgDefaultBalance, min_self, short_eq_long_iff_false]

/-- C6 (amended: the nonnegativity is guaranteed for entries only — the
margin check rejects any entry whose margin exceeds the balance, with no
partial fill, so `executeEntry` keeps a nonnegative balance nonnegative;
`executeCollapse` carries no such guarantee). -/
theorem balance_nonneg_after_entry (st : TradingState) (side : Side)
    (price size : ℚ) (t : ℕ) (hb : 0 ≤ st.balance) :
    0 ≤ (TradingEngine.executeEntry st side price size t).1.balance := by
  rw [TradingEngine.executeEntry]
  simp only [TradingEngine.calculateMargin]
  by_cases hrej : size * price / st.leverage > st.balance
  · rw [if_pos hrej]
    exact hb
  · rw [if_neg hrej]
    push_neg at hrej
    cases side with
    | LONG =>
      rw [if_pos rfl]
      exact sub_nonneg.mpr hrej
    | SHORT =>
      rw [if_neg (by simp : ¬(Side.SHORT = Side.LONG))]
      exact sub_nonneg.mpr hrej

/-- C6 witness: a concrete accepted entry keeps the balance nonnegative. -/
theorem balance_nonneg_after_entry_witness :
    0 ≤ (TradingEngine.reset 1000).balance
    ∧ 0 ≤ (TradingEngine.executeEntry (TradingEngine.reset 1000)
        Side.LONG 100 1 0).1.balance :=
  ⟨by norm_num [TradingEngine.reset],
    balance_nonneg_after_entry (TradingEngine.reset 1000)
      Side.LONG 100 1 0 (by norm_num [TradingEngine.reset])⟩

/-- Monotonicity of the price rounding used for quotes. -/
lemma roundPrice_mono (config : AssetConfig) (htick : 0 < config.tickSize)
    {a b : ℚ} (h : a ≤ b) : roundPrice a config ≤ roundPrice b config := by
  unfold roundPrice mathRound
  by_cases hd : config.decimals = 0
  · rw [if_pos hd, if_pos hd]
    exact_mod_cast Int.floor_le_floor (by linarith)
  · rw [if_neg hd, if_neg hd]
    have h2 : a / config.tickSize + 1 / 2 ≤ b / config.tickSize + 1 / 2 := by
      have h3 := (div_le_div_iff_of_pos_right htick).mpr h
      linarith
    have h4 : ((⌊a / config.tickSize + 1 / 2⌋ : ℤ) : ℚ)
        ≤ ((⌊b / config.tickSize + 1 / 2⌋ : ℤ) : ℚ) :=
      Int.cast_le.mpr (Int.floor_le_floor h2)
    exact mul_le_mul_of_nonneg_right h4 htick.le

/-- C3: for all valid quote inputs (volatility at least 0, positive tick
size, positive maximum position), the rounded quotes satisfy
`ask - bid ≥ 0`, and the returned `baseSpread` is at least `2 * tickSize`. -/
theorem calculateQuotes_spread_invariant (mid atr longSize shortSize : ℚ)
    (config : AssetConfig) (hatr : 0 ≤ atr) (htick : 0 < config.tickSize)
    (hmax : 0 < config.maxPosition) :
    0 ≤ (calculateQuotes mid atr longSize shortSize config).ask
        - (calculateQuotes mid atr longSize shortSize config).bid
    ∧ 2 * config.tickSize
        ≤ (calculateQuotes mid atr longSize shortSize config).baseSpread := by
  constructor
  · have hbs : 0 ≤ max (config.tickSize * 2) (config.kVol * atr) :=
      le_trans (by linarith) (le_max_left _ _)
    refine sub_nonneg.mpr (roundPrice_mono config htick ?_)
    linarith
  · show 2 * config.tickSize ≤ max (config.tickSize * 2) (config.kVol * atr)
    calc 2 * config.tickSize = config.tickSize * 2 := by ring
    _ ≤ max (config.tickSize * 2) (config.kVol * atr) := le_max_left _ _

/-- C3 witness: the quote invariant at the BTC configuration with mid 95000,
ATR 3 and a flat book. -/
theorem calculateQuotes_spread_invariant_witness :
    (0 ≤ (3:ℚ) ∧ 0 < btcConfig.tickSize ∧ 0 < btcConfig.maxPosition)
    ∧ 0 ≤ (calculateQuotes 95000 3 0 0 btcConfig).ask
        - (calculateQuotes 95000 3 0 0 btcConfig).bid
    ∧ 2 * btcConfig.tickSize
        ≤ (calculateQuotes 95000 3 0 0 btcConfig).baseSpread :=
  ⟨⟨by norm_num, by norm_num [btcConfig], by norm_num [btcConfig]⟩,
    (calculateQuotes_spread_invariant 95000 3 0 0 btcConfig (by norm_num)
      (by norm_num [btcConfig]) (by norm_num [btcConfig])).1,
    (calculateQuotes_spread_invariant 95000 3 0 0 btcConfig (by norm_num)
      (by norm_num [btcConfig]) (by norm_num [btcConfig])).2⟩

/-- C9: a successful `executeCollapse` (both position sizes positive)
preserves `calculateEquity` at every evaluation price: the returned margin,
the realized PnL credited to the balance, and the removed unrealized PnL
and position margin cancel exactly in exact arithmetic. -/
theorem executeCollapse_preserves_equity (st : TradingState) (t : ℕ) (P : ℚ)
    (hL : 0 < st.longPosition.size) (hS : 0 < st.shortPosition.size) :
    TradingEngine.calculateEquity (TradingEngine.executeCollapse st t).1 P
      = TradingEngine.calculateEquity st P := by
  have hmin : 0 < min st.longPosition.size st.shortPosition.size := lt_min hL hS
  rw [TradingEngine.executeCollapse, if_neg (not_le.mpr hmin)]
  simp only [TradingEngine.calculateEquity, TradingEngine.calculateUnrealizedPnL,
    TradingEngine.calculateMargin, if_pos hL, if_pos hS]
  rcases le_total st.longPosition.size st.shortPosition.size with h | h
  · rw [min_eq_left h]
    simp only [sub_self, gt_iff_lt, lt_self_iff_false, if_false]
    by_cases hSL : 0 < st.shortPosition.size - st.longPosition.size
    · simp only [if_pos hSL]
      ring
    · have hEQ : st.shortPosition.size = st.longPosition.size := by
        have := not_lt.mp hSL
        linarith
      rw [hEQ]
      simp only [sub_self, lt_self_iff_false, if_false]
      ring
  · rw [min_eq_right h]
    simp only [sub_self, gt_iff_lt, lt_self_iff_false, if_false]
    by_cases hLS : 0 < st.longPosition.size - st.shortPosition.size
    · simp only [if_pos hLS]
      ring
    · have hEQ : st.longPosition.size = st.shortPosition.size := by
        have := not_lt.mp hLS
        linarith
      rw [hEQ]
      simp only [sub_self, lt_self_iff_false, if_false]
      ring

/-- C9 witness: equity before and after the collapse of long `{2, 100}`
against short `{1, 105}` agrees at evaluation price 98. -/
theorem executeCollapse_preserves_equity_witness :
    (0:ℚ) < 2 ∧ (0:ℚ) < 1
    ∧ TradingEngine.calculateEquity
        (TradingEngine.executeCollapse
          { TradingEngine.reset 1000 with
              longPosition := ⟨2, 100⟩, shortPosition := ⟨1, 105⟩ } 0).1 98
      = TradingEngine.calculateEquity
          { TradingEngine.reset 1000 with
              longPosition := ⟨2, 100⟩, shortPosition := ⟨1, 105⟩ } 98 :=
  ⟨by norm_num, by norm_num,
    executeCollapse_preserves_equity
      { TradingEngine.reset 1000 with
          longPosition := ⟨2, 100⟩, shortPosition := ⟨1, 105⟩ } 0 98
      (by norm_num) (by norm_num)⟩

/-- Uniform draws are nonnegative. -/
lemma rngRandom_nonneg (r : RNGState) : 0 ≤ (rngRandom r).2 := by
  unfold rngRandom
  positivity

/-- Uniform draws are below 1: the mixed output is reduced `% 2 ^ 32` before
the division by `2 ^ 32`. -/
lemma rngRandom_lt_one (r : RNGState) : (rngRandom r).2 < 1 := by
  show (mulberry32Mix (r.state + 0x6D2B79F5) : ℚ) / (UINT32SIZE : ℚ) < 1
  rw [div_lt_one (by norm_num [UINT32SIZE])]
  have hm : mulberry32Mix (r.state + 0x6D2B79F5) < UINT32SIZE :=
    Nat.mod_lt _ (by norm_num [UINT32SIZE])
  exact_mod_cast hm

/-- An entry sized by `calculateOrderSize` times a fill fraction of at most
1 is never rejected by the margin check when the balance is nonnegative,
the price positive and the leverage positive: its margin is
`f * min(orderSizeUSD, balance * leverage) / leverage ≤ balance`. -/
lemma orderSize_entry_accepted (st : TradingState) (side : Side) (p f : ℚ)
    (t : ℕ) (hb : 0 ≤ st.balance) (hlev : 0 < st.leverage) (hp : 0 < p)
    (hf0 : 0 ≤ f) (hf1 : f ≤ 1) :
    (TradingEngine.executeEntry st side p
      (TradingEngine.calculateOrderSize st p * f) t).2 ≠ none := by
  have hp0 : p ≠ 0 := ne_of_gt hp
  have hlev0 : st.leverage ≠ 0 := ne_of_gt hlev
  have hM0 : 0 ≤ min cfgOrderSizeUSD (st.balance * st.leverage) :=
    le_min (by norm_num [cfgOrderSizeUSD]) (mul_nonneg hb hlev.le)
  have hkey : TradingEngine.calculateMargin st
      (TradingEngine.calculateOrderSize st p * f) p
      = f * min cfgOrderSizeUSD (st.balance * st.leverage) / st.leverage := by
    unfold TradingEngine.calculateMargin TradingEngine.calculateOrderSize
    field_simp
    ring
  have hmargin : TradingEngine.calculateMargin st
      (TradingEngine.calculateOrderSize st p * f) p ≤ st.balance := by
    rw [hkey]
    have h1 : f * min cfgOrderSizeUSD (st.balance * st.leverage)
        ≤ min cfgOrderSizeUSD (st.balance * st.leverage) :=
      mul_le_of_le_one_left hM0 hf1
    have h2 : min cfgOrderSizeUSD (st.balance * st.leverage)
        ≤ st.balance * st.leverage := min_le_right _ _
    have h3 : f * min cfgOrderSizeUSD (st.balance * st.leverage) / st.leverage
        ≤ st.balance * st.leverage / st.leverage :=
      (div_le_div_iff_of_pos_right hlev).mpr (le_trans h1 h2)
    rwa [mul_div_cancel_right₀ _ hlev0] at h3
  rw [TradingEngine.executeEntry, if_neg (not_lt.mpr hmargin)]
  simp

/-- C10: the margin-rejection branch is unreachable for orchestrator
generated fills: whenever the balance is nonnegative, the leverage positive
and both current quotes positive, `simulateMarketActivity` never produces a
rejected entry (`some none`): any attempted fill is sized as
`fillPercentage * min(orderSizeUSD, balance * leverage) / price` at the very
price the entry executes at, so its margin stays at most the balance. -/
theorem simulateMarketActivity_never_rejected (st : EngineState) (t : ℕ)
    (hb : 0 ≤ st.trading.balance) (hlev : 0 < st.trading.leverage)
    (hbid : 0 < st.currentQuotes.bid) (hask : 0 < st.currentQuotes.ask) :
    (simulateMarketActivity st t).2 ≠ some none := by
  have hu0 := rngRandom_nonneg (rngRandom (rngRandom st.rng).1).1
  have hu1 := rngRandom_lt_one (rngRandom (rngRandom st.rng).1).1
  have hf0 : 0 ≤ (0.5:ℚ) + (rngRandom (rngRandom (rngRandom st.rng).1).1).2 * 0.5 := by
    linarith
  have hf1 : (0.5:ℚ) + (rngRandom (rngRandom (rngRandom st.rng).1).1).2 * 0.5 ≤ 1 := by
    linarith
  simp only [simulateMarketActivity]
  by_cases h0 : (rngRandom st.rng).2 > 0.25
  · rw [if_pos h0]
    simp
  · rw [if_neg h0]
    by_cases h1 : (rngRandom (rngRandom st.rng).1).2 < 0.5
    · rw [if_pos h1]
      simpa using orderSize_entry_accepted st.trading Side.SHORT
        st.currentQuotes.ask
        (0.5 + (rngRandom (rngRandom (rngRandom st.rng).1).1).2 * 0.5) t
        hb hlev hask hf0 hf1
    · rw [if_neg h1]
      simpa using orderSize_entry_accepted st.trading Side.LONG
        st.currentQuotes.bid
        (0.5 + (rngRandom (rngRandom (rngRandom st.rng).1).1).2 * 0.5) t
        hb hlev hbid hf0 hf1

/-- C10 witness: no rejected entry on a concrete freshly seeded engine with
positive quotes. -/
theorem simulateMarketActivity_never_rejected_witness :
    (0 ≤ ({ initEngine 12345 with
        currentQuotes := ⟨94999, 95001, 2, 2, 0, 0⟩ } : EngineState).trading.balance
      ∧ 0 < ({ initEngine 12345 with
        currentQuotes := ⟨94999, 95001, 2, 2, 0, 0⟩ } : EngineState).trading.leverage)
    ∧ (simulateMarketActivity
        { initEngine 12345 with
            currentQuotes := ⟨94999, 95001, 2, 2, 0, 0⟩ } 0).2 ≠ some none :=
  ⟨⟨by norm_num [initEngine, TradingEngine.reset, cfgDefaultBalance, cfgLeverage],
      by norm_num [initEngine, TradingEngine.reset, cfgLeverage]⟩,
    simulateMarketActivity_never_rejected _ 0
      (by norm_num [initEngine, TradingEngine.reset, cfgDefaultBalance])
      (by norm_num [initEngine, TradingEngine.reset, cfgLeverage])
      (by norm_num) (by norm_num)⟩

/-- The recorded `DataPoint` timestamp of a tick is exactly the wall-clock
instant the tick ran at. -/
lemma tick_timestamp (nm : NoiseModel) (st : EngineState) (now : ℕ) :
    ((tick nm st now).2).timestamp = now := rfl

/-- C4 counterexample: the claim as stated fails because `DataPoint`
timestamps come from the wall clock (`new Date()` / `Date.now()`), not from
the seed: two identically seeded single-tick runs whose ticks fire at
different instants produce different `DataPoint` sequences (their
`timestamp` fields differ), so the sequences are not byte-identical. -/
theorem runSim_wallclock_timestamps_cex :
    runSim ⟨fun _ _ => 0, 0⟩ (initEngine 12345) [0]
      ≠ runSim ⟨fun _ _ => 0, 0⟩ (initEngine 12345) [1000] := by
  intro h
  have h2 := congrArg (fun l => l.map (fun d : DataPoint => d.timestamp)) h
  simp only [runSim, List.map_cons, List.map_nil, tick_timestamp] at h2
  exact absurd h2 (by decide)

/-- C4 (amended: determinism relative to the clock): two engines configured
identically, seeded with the same seed and driven through the same tick
instants produce identical `DataPoint` sequences — the whole run is a pure
function of seed and tick instants, for every noise model. -/
theorem runSim_deterministic (nm : NoiseModel) (seed : ℕ)
    (ts1 ts2 : List ℕ) (h : ts1 = ts2) :
    runSim nm (initEngine seed) ts1 = runSim nm (initEngine seed) ts2 := by
  rw [h]

/-- C4 witness: the determinism theorem applied at a concrete seed and
concrete tick instants. -/
theorem runSim_deterministic_witness :
    runSim ⟨fun _ _ => 0, 0⟩ (initEngine 12345) [0, 1500, 3000]
      = runSim ⟨fun _ _ => 0, 0⟩ (initEngine 12345) [0, 1500, 3000] :=
  runSim_deterministic ⟨fun _ _ => 0, 0⟩ 12345 [0, 1500, 3000]
    [0, 1500, 3000] rfl

end MMSim
